import Mathlib

/-!
Shallow embedding of `filemaker-lib` (src/src/lib.rs), a Rust client for the
FileMaker Data API, together with theorems checking the natural-language
specification against the code.

Modelling conventions:
* `serde_json::Value` becomes the inductive `Json`; objects are association
  lists of key/value pairs (`Value::get`, `as_str`, `as_u64`, `as_array`,
  `as_object`, `is_object` are translated below).  Floating point numbers do
  not occur in any claim, so numbers are modelled as integers.
* Each HTTP round trip of the code is a lookup in a `World` oracle mapping the
  constructed `Request` to either `none` (transport failure, `send()` erring),
  or a response whose body is `none` (the `.json()` deserialization step
  fails) or a parsed `Json` body.  The response carries the HTTP status code;
  note the Rust code never inspects it, exactly as `reqwest`'s `.json()`
  succeeds independently of the status.
* The `FM_URL` environment variable is an `Option String` argument passed at
  the point of each call, mirroring `std::env::var("FM_URL").unwrap_or_default()`
  being evaluated inside every method, never cached in the handle.
* The handle's `token: Arc<Mutex<Option<String>>>` becomes the `token` field;
  methods are state passing (they return the possibly-updated handle) so that
  "the token is never written after construction" is a statement, not an
  artifact of the embedding.  Each operation also returns the list of HTTP
  requests it issued, in order, so that claims about which calls happen (and
  which are skipped after a failure) can be stated.
* `anyhow::Error` becomes `Err`, with dedicated constructors for the
  propagated transport/deserialization failures and `Err.msg` for the
  `anyhow!("...")` messages created by the library itself.
-/

namespace FilemakerLib

/-- JSON values (`serde_json::Value`); objects are association lists. -/
inductive Json where
  | null
  | bool (b : Bool)
  | num (n : Int)
  | str (s : String)
  | arr (elems : List Json)
  | obj (fields : List (String × Json))

/-- `Value::get(key)`: member lookup, `None` on non-objects. -/
def Json.get : Json → String → Option Json
  | .obj fields, key => (fields.find? (fun p => p.1 == key)).map Prod.snd
  | _, _ => none

/-- `Value::as_str`. -/
def Json.as_str : Json → Option String
  | .str s => some s
  | _ => none

/-- `Value::as_u64`: some only for integers in `u64` range. -/
def Json.as_u64 : Json → Option Nat
  | .num n => if 0 ≤ n ∧ n < 2 ^ 64 then some n.toNat else none
  | _ => none

/-- `Value::as_array`. -/
def Json.as_array : Json → Option (List Json)
  | .arr elems => some elems
  | _ => none

/-- `Value::as_object`. -/
def Json.as_object : Json → Option (List (String × Json))
  | .obj fields => some fields
  | _ => none

/-- `Value::is_object`. -/
def Json.is_object : Json → Bool
  | .obj _ => true
  | _ => false

/-- HTTP methods used by the library. -/
inductive Method where
  | GET
  | POST
  | PATCH
  | DELETE

/-- The Authorization header: Basic (username/password) or Bearer (token). -/
inductive Auth where
  | basic (username password : String)
  | bearer (token : String)

/-- One HTTP request as the library constructs it. -/
structure Request where
  url : String
  method : Method
  body : Option Json
  auth : Option Auth

/-- An upstream HTTP response: a status code and the result of parsing the
body as JSON (`none` when `.json()` fails). -/
structure HttpResponse where
  status : Nat
  body : Option Json

/-- The server oracle: `none` models a transport failure of `send()`. -/
def World := Request → Option HttpResponse

/-- The `anyhow::Error` values the library produces. -/
inductive Err where
  | noToken
  | transport
  | parse
  | msg (s : String)

/-- The `Filemaker` handle (struct `Filemaker`): URL-encoded database name,
URL-encoded table name, and the `Mutex<Option<String>>` token contents. -/
structure Filemaker where
  database : String
  table : String
  token : Option String

/-- Character-level body of `str::replace(" ", "%20")`: each space becomes
the three characters `%20`, every other character is kept.  (For a
single-character pattern Rust's `replace` substitutes exactly each
occurrence of that character.) -/
def replace_space_chars : List Char → List Char
  | [] => []
  | c :: rest =>
      if c = ' ' then '%' :: '2' :: '0' :: replace_space_chars rest
      else c :: replace_space_chars rest

/-- `Filemaker::encode_parameter`: replaces every space with `%20`. -/
def encode_parameter (parameter : String) : String :=
  String.mk (replace_space_chars parameter.toList)

/-- Rust `str::parse::<u64>()`: optional leading `+`, then one or more ASCII
digits, value within `u64` range. -/
def parse_u64 (s : String) : Option Nat :=
  let digits := match s.toList with
    | '+' :: rest => rest
    | l => l
  if digits.isEmpty then none
  else if digits.all Char.isDigit then
    let n := digits.foldl (fun acc c => acc * 10 + (c.toNat - 48)) 0
    if n < 2 ^ 64 then some n else none
  else none

/-- Rust `str::starts_with`, at the character level. -/
def starts_with (s pre : String) : Bool :=
  pre.toList.isPrefixOf s.toList

/-- `std::env::var("FM_URL").unwrap_or_default()`. -/
def fm_base (env : Option String) : String := env.getD ""

/-- Path of the sessions endpoint for a database. -/
def session_url_suffix (database : String) : String :=
  "/databases/" ++ encode_parameter database ++ "/sessions"

/-- URL `{FM_URL}/databases/{db}/sessions` built by `get_session_token`. -/
def session_url (env : Option String) (database : String) : String :=
  fm_base env ++ session_url_suffix database

/-- The POST request `get_session_token` sends: empty JSON body `{}`,
Basic authentication from the credentials. -/
def session_request (env : Option String) (database username password : String) : Request :=
  { url := session_url env database
    method := .POST
    body := some (Json.obj [])
    auth := some (.basic username password) }

/-- `response.token` extraction of `get_session_token`:
`json.get("response").and_then(|r| r.get("token")).and_then(|t| t.as_str())`. -/
def extract_token (json : Json) : Option String :=
  ((json.get "response").bind (fun r => r.get "token")).bind Json.as_str

/-- `Filemaker::get_session_token`: POSTs to the sessions endpoint with Basic
auth, parses the JSON response and extracts `response.token`.  The HTTP
status code is never inspected. -/
def get_session_token (env : Option String) (world : World)
    (database username password : String) : Except Err String :=
  match world (session_request env database username password) with
  | none => .error .transport
  | some resp =>
    match resp.body with
    | none => .error .parse
    | some json =>
      match extract_token json with
      | some token => .ok token
      | none => .error (.msg "Failed to get token from FileMaker API")

/-- `Filemaker::new`: URL-encodes the database and table names, authenticates
once via `get_session_token`, and stores the resulting token. -/
def Filemaker.new (env : Option String) (world : World)
    (username password database table : String) : Except Err Filemaker :=
  match get_session_token env world database username password with
  | .error e => .error e
  | .ok token =>
    .ok { database := encode_parameter database
          table := encode_parameter table
          token := some token }

/-- The request `authenticated_request` builds: the given URL, method and
body with the stored token attached as a Bearer header. -/
def bearer_request (url : String) (method : Method) (body : Option Json)
    (tok : String) : Request :=
  { url := url, method := method, body := body, auth := some (.bearer tok) }

/-- `Filemaker::authenticated_request`: reads (clones) the stored token,
errors when it is absent, attaches it as a Bearer header, sends, and parses
the JSON response.  Returns the result, the post-state of the handle, and
the list of requests issued. -/
def authenticated_request (fm : Filemaker) (world : World) (url : String)
    (method : Method) (body : Option Json) :
    (Except Err Json) × Filemaker × List Request :=
  match fm.token with
  | none => (.error .noToken, fm, [])
  | some tok =>
    let req : Request := bearer_request url method body tok
    match world req with
    | none => (.error .transport, fm, [req])
    | some resp =>
      match resp.body with
      | none => (.error .parse, fm, [req])
      | some json => (.ok json, fm, [req])

/-- Shared path segment `/databases/{db}/layouts/{table}/records`. -/
def records_url_suffix (fm : Filemaker) : String :=
  "/databases/" ++ fm.database ++ "/layouts/" ++ fm.table ++ "/records"

/-- URL of the paginated records endpoint used by `get_records`. -/
def records_range_url (env : Option String) (fm : Filemaker)
    (start limit : Nat) : String :=
  fm_base env ++ (records_url_suffix fm ++ "?_offset=" ++ toString start
    ++ "&_limit=" ++ toString limit)

/-- URL of the records endpoint used by `get_number_of_records` and
`add_record`. -/
def records_url (env : Option String) (fm : Filemaker) : String :=
  fm_base env ++ records_url_suffix fm

/-- URL of a single record, used by `get_record_by_id`, `update_record` and
`delete_record`. -/
def record_id_url (env : Option String) (fm : Filemaker) (id : Nat) : String :=
  fm_base env ++ (records_url_suffix fm ++ "/" ++ toString id)

/-- URL of the `_find` endpoint used by `search` and `advanced_search`. -/
def find_url (env : Option String) (fm : Filemaker) : String :=
  fm_base env ++ ("/databases/" ++ fm.database ++ "/layouts/" ++ fm.table
    ++ "/_find")

/-- `response.get("response").and_then(|r| r.get("data"))`, the envelope
unwrapping shared by `get_records`, `search` and `get_record_by_id`. -/
def extract_data (response : Json) : Option Json :=
  (response.get "response").bind (fun r => r.get "data")

/-- `Filemaker::get_records`: GETs the paginated records endpoint and unwraps
`response.data`; a present but non-array `data` yields the empty vector via
`as_array().unwrap_or(&vec![])`, an absent `data` is an error. -/
def get_records (fm : Filemaker) (env : Option String) (world : World)
    (start limit : Nat) : (Except Err (List Json)) × Filemaker × List Request :=
  match authenticated_request fm world (records_range_url env fm start limit) .GET none with
  | (.error e, fm1, tr) => (.error e, fm1, tr)
  | (.ok response, fm1, tr) =>
    match extract_data response with
    | some data => (.ok (data.as_array.getD []), fm1, tr)
    | none => (.error (.msg "Failed to retrieve records"), fm1, tr)

/-- `response.response.dataInfo.totalRecordCount` extraction of
`get_number_of_records`. -/
def extract_total_count (response : Json) : Option Nat :=
  (((response.get "response").bind (fun r => r.get "dataInfo")).bind
    (fun d => d.get "totalRecordCount")).bind Json.as_u64

/-- `Filemaker::get_number_of_records`: GETs the records endpoint and unwraps
`response.dataInfo.totalRecordCount`. -/
def get_number_of_records (fm : Filemaker) (env : Option String) (world : World) :
    (Except Err Nat) × Filemaker × List Request :=
  match authenticated_request fm world (records_url env fm) .GET none with
  | (.error e, fm1, tr) => (.error e, fm1, tr)
  | (.ok response, fm1, tr) =>
    match extract_total_count response with
    | some total_count => (.ok total_count, fm1, tr)
    | none => (.error (.msg "Failed to retrieve total record count"), fm1, tr)

/-- `Filemaker::get_all_records`: fetches the total count, then fetches
records with offset 1 and the count as limit. -/
def get_all_records (fm : Filemaker) (env : Option String) (world : World) :
    (Except Err (List Json)) × Filemaker × List Request :=
  match get_number_of_records fm env world with
  | (.error e, fm1, tr) => (.error e, fm1, tr)
  | (.ok total_count, fm1, tr) =>
    match get_records fm1 env world 1 total_count with
    | (r, fm2, tr2) => (r, fm2, tr ++ tr2)

/-- A `HashMap<String, String>` rendered as a JSON object. -/
def string_pairs_to_json (m : List (String × String)) : Json :=
  Json.obj (m.map (fun p => (p.1, Json.str p.2)))

/-- The find-request body `search` constructs from its arguments. -/
def search_body (query : List (List (String × String))) (sort : List String)
    (ascending : Bool) : Json :=
  let sort_order := if ascending then "ascend" else "descend"
  let sort_map := sort.map (fun s => [("fieldName", s), ("sortOrder", sort_order)])
  Json.obj [("query", Json.arr (query.map string_pairs_to_json)),
            ("sort", Json.arr (sort_map.map string_pairs_to_json))]

/-- `Filemaker::search`: POSTs the query/sort body to `_find` and unwraps
`response.data` the same way `get_records` does. -/
def search (fm : Filemaker) (env : Option String) (world : World)
    (query : List (List (String × String))) (sort : List String) (ascending : Bool) :
    (Except Err (List Json)) × Filemaker × List Request :=
  match authenticated_request fm world (find_url env fm) .POST
      (some (search_body query sort ascending)) with
  | (.error e, fm1, tr) => (.error e, fm1, tr)
  | (.ok response, fm1, tr) =>
    match extract_data response with
    | some data => (.ok (data.as_array.getD []), fm1, tr)
    | none => (.error (.msg "Failed to retrieve search results"), fm1, tr)

/-- The find-request body `advanced_search` constructs: a `query` array with
one `{field: value}` object per entry, and — only when `sort` is non-empty —
a `sort` array of `{fieldName, sortOrder}` objects. -/
def advanced_search_body (fields : List (String × Json)) (sort : List String)
    (ascending : Bool) : Json :=
  let query_val := Json.arr (fields.map (fun p => Json.obj [(p.1, p.2)]))
  if sort.isEmpty then Json.obj [("query", query_val)]
  else
    let sort_array := sort.map (fun s =>
      Json.obj [("fieldName", Json.str s),
                ("sortOrder", Json.str (if ascending then "ascend" else "descend"))])
    Json.obj [("query", query_val), ("sort", Json.arr sort_array)]

/-- `Filemaker::advanced_search`: POSTs the query/sort body to `_find`; unlike
`search` it unwraps `response.data` with `as_array`, so a present but
non-array `data` is an error here. -/
def advanced_search (fm : Filemaker) (env : Option String) (world : World)
    (fields : List (String × Json)) (sort : List String) (ascending : Bool) :
    (Except Err (List Json)) × Filemaker × List Request :=
  match authenticated_request fm world (find_url env fm) .POST
      (some (advanced_search_body fields sort ascending)) with
  | (.error e, fm1, tr) => (.error e, fm1, tr)
  | (.ok response, fm1, tr) =>
    match (extract_data response).bind Json.as_array with
    | some data => (.ok data, fm1, tr)
    | none => (.error (.msg "Failed to retrieve advanced search results"), fm1, tr)

/-- `Filemaker::get_record_by_id`: GETs the record URL and returns the first
element of `response.data`. -/
def get_record_by_id (fm : Filemaker) (env : Option String) (world : World)
    (id : Nat) : (Except Err Json) × Filemaker × List Request :=
  match authenticated_request fm world (record_id_url env fm id) .GET none with
  | (.error e, fm1, tr) => (.error e, fm1, tr)
  | (.ok response, fm1, tr) =>
    match extract_data response with
    | some data =>
      match data.as_array.bind List.head? with
      | some record => (.ok record, fm1, tr)
      | none => (.error (.msg "No record found"), fm1, tr)
    | none => (.error (.msg "Failed to get record"), fm1, tr)

/-- `response.get("response").and_then(|r| r.get("recordId")).and_then(|id| id.as_str())`
of `add_record`. -/
def extract_record_id (response : Json) : Option String :=
  ((response.get "response").bind (fun r => r.get "recordId")).bind Json.as_str

/-- `Filemaker::add_record`: POSTs `{"fieldData": ...}` to the records
endpoint.  When `response.recordId` is a string parsing as `u64` it re-fetches
the added record and returns `{success: true, result: record}`; when the field
is missing or unparseable it returns `Ok` of `{success: false, result: response}`. -/
def add_record (fm : Filemaker) (env : Option String) (world : World)
    (field_data : List (String × Json)) :
    (Except Err (List (String × Json))) × Filemaker × List Request :=
  let body := Json.obj [("fieldData", Json.obj field_data)]
  match authenticated_request fm world (records_url env fm) .POST (some body) with
  | (.error e, fm1, tr) => (.error e, fm1, tr)
  | (.ok response, fm1, tr) =>
    match extract_record_id response with
    | some record_id_str =>
      match parse_u64 record_id_str with
      | some record_id =>
        match get_record_by_id fm1 env world record_id with
        | (.error e, fm2, tr2) => (.error e, fm2, tr ++ tr2)
        | (.ok added_record, fm2, tr2) =>
          (.ok [("success", .bool true), ("result", added_record)], fm2, tr ++ tr2)
      | none => (.ok [("success", .bool false), ("result", response)], fm1, tr)
    | none => (.ok [("success", .bool false), ("result", response)], fm1, tr)

/-- `Filemaker::update_record`: PATCHes `{"fieldData": ...}` to the record URL
and returns the parsed response unchanged. -/
def update_record (fm : Filemaker) (env : Option String) (world : World)
    (id : Nat) (field_data : List (String × Json)) :
    (Except Err Json) × Filemaker × List Request :=
  let body := Json.obj [("fieldData", Json.obj field_data)]
  match authenticated_request fm world (record_id_url env fm id) .PATCH (some body) with
  | (r, fm1, tr) => (r, fm1, tr)

/-- `Filemaker::delete_record`: DELETEs the record URL; any JSON-object
response counts as success and returns `{"success": true}`. -/
def delete_record (fm : Filemaker) (env : Option String) (world : World)
    (id : Nat) : (Except Err Json) × Filemaker × List Request :=
  match authenticated_request fm world (record_id_url env fm id) .DELETE none with
  | (.error e, fm1, tr) => (.error e, fm1, tr)
  | (.ok response, fm1, tr) =>
    if response.is_object then (.ok (Json.obj [("success", .bool true)]), fm1, tr)
    else (.error (.msg "Failed to delete record"), fm1, tr)

/-- The record-id extraction of `clear_database`'s loop body:
`record.get("recordId").and_then(|id| id.as_str())` followed by
`parse::<u64>()`. -/
def record_id_of (record : Json) : Option String :=
  (record.get "recordId").bind Json.as_str

/-- The per-record deletion loop of `Filemaker::clear_database`: extracts each
record's `recordId`, parses it as `u64`, deletes it, and returns the first
error without touching later records. -/
def delete_records_loop (fm : Filemaker) (env : Option String) (world : World) :
    List Json → (Except Err Unit) × Filemaker × List Request
  | [] => (.ok (), fm, [])
  | record :: rest =>
    match record_id_of record with
    | some id_str =>
      match parse_u64 id_str with
      | some id =>
        match delete_record fm env world id with
        | (.error e, fm1, tr) => (.error e, fm1, tr)
        | (.ok _, fm1, tr) =>
          match delete_records_loop fm1 env world rest with
          | (r, fm2, tr2) => (r, fm2, tr ++ tr2)
      | none => (.error (.msg "Failed to parse record ID as u64"), fm, [])
    | none => (.error (.msg "Record ID not found in record"), fm, [])

/-- `Filemaker::clear_database`: gets the record count, returns `Ok(())` at
once when it is zero, otherwise fetches all records (offset 1, the count as
limit) and deletes them one by one, aborting on the first failure. -/
def clear_database (fm : Filemaker) (env : Option String) (world : World) :
    (Except Err Unit) × Filemaker × List Request :=
  match get_number_of_records fm env world with
  | (.error e, fm1, tr) => (.error e, fm1, tr)
  | (.ok number_of_records, fm1, tr) =>
    if number_of_records = 0 then (.ok (), fm1, tr)
    else
      match get_records fm1 env world 1 number_of_records with
      | (.error e, fm2, tr2) => (.error e, fm2, tr ++ tr2)
      | (.ok records, fm2, tr2) =>
        match delete_records_loop fm2 env world records with
        | (r, fm3, tr3) => (r, fm3, tr ++ tr2 ++ tr3)

/-- `Filemaker::get_row_names_by_example`: the keys of the record's
`fieldData` object whose name does not start with `g_`, pushed in order;
empty when `fieldData` is absent or not an object. -/
def get_row_names_by_example (record : Json) : List String :=
  match (record.get "fieldData").bind Json.as_object with
  | some field_data =>
    field_data.foldl
      (fun fields p => if ¬ starts_with p.1 "g_" then fields ++ [p.1] else fields) []
  | none => []

/-- `Filemaker::get_row_names`: fetches the first record and extracts its
field names; empty when the table has no records. -/
def get_row_names (fm : Filemaker) (env : Option String) (world : World) :
    (Except Err (List String)) × Filemaker × List Request :=
  match get_records fm env world 1 1 with
  | (.error e, fm1, tr) => (.error e, fm1, tr)
  | (.ok records, fm1, tr) =>
    match records.head? with
    | some first_record => (.ok (get_row_names_by_example first_record), fm1, tr)
    | none => (.ok [], fm1, tr)

/-- URL of the layouts endpoint used by the static `get_layouts`. -/
def layouts_url (env : Option String) (database : String) : String :=
  fm_base env ++ ("/databases/" ++ encode_parameter database ++ "/layouts")

/-- `Filemaker::get_layouts` (static): performs its own Basic-auth session
handshake, then GETs the layouts endpoint with the fresh Bearer token and
collects `response.layouts[*].name`. -/
def get_layouts (env : Option String) (world : World)
    (username password database : String) : Except Err (List String) :=
  match get_session_token env world database username password with
  | .error e => .error e
  | .ok token =>
    let req : Request := { url := layouts_url env database, method := .GET
                           body := none, auth := some (.bearer token) }
    match world req with
    | none => .error .transport
    | some resp =>
      match resp.body with
      | none => .error .parse
      | some response =>
        match ((response.get "response").bind (fun r => r.get "layouts")).bind Json.as_array with
        | some layouts =>
          .ok (layouts.filterMap (fun l => (l.get "name").bind Json.as_str))
        | none => .error (.msg "Failed to retrieve layouts")

/-- `Filemaker::get_databases` (static): GETs `/databases` with Basic auth
and collects `response.databases[*].name`. -/
def get_databases (env : Option String) (world : World)
    (username password : String) : Except Err (List String) :=
  let req : Request := { url := fm_base env ++ "/databases", method := .GET
                         body := none, auth := some (.basic username password) }
  match world req with
  | none => .error .transport
  | some resp =>
    match resp.body with
    | none => .error .parse
    | some response =>
      match ((response.get "response").bind (fun r => r.get "databases")).bind Json.as_array with
      | some databases =>
        .ok (databases.filterMap (fun db => (db.get "name").bind Json.as_str))
      | none => .error (.msg "Failed to retrieve databases")

/-- `Filemaker::delete_database` (static): acquires its own session token and
DELETEs the database URL; the response body is never inspected. -/
def delete_database (env : Option String) (world : World)
    (database username password : String) : Except Err Unit :=
  match get_session_token env world database username password with
  | .error e => .error e
  | .ok token =>
    let req : Request := { url := fm_base env ++ ("/databases/" ++ encode_parameter database)
                           method := .DELETE, body := none
                           auth := some (.bearer token) }
    match world req with
    | none => .error .transport
    | some _ => .ok ()

/-! ### Statement-support definitions and test fixtures -/

/-- Whether an `anyhow::Result` is the error case. -/
def isError {α : Type} : Except Err α → Bool
  | .error _ => true
  | .ok _ => false

/-- A world where no request ever yields a parsed JSON body: every `send()`
fails in transport, or the returned body fails deserialization. -/
def world_yields_no_json (world : World) : Prop :=
  ∀ req resp, world req = some resp → resp.body = none

/-- A world where every `send()` fails (network transport failure). -/
def world_transport_fail : World := fun _ => none

/-- A world where every response body fails to deserialize. -/
def world_parse_fail : World := fun _ => some { status := 200, body := none }

/-- The GET request `get_number_of_records` issues. -/
def count_request (env : Option String) (fm : Filemaker) (tok : String) : Request :=
  bearer_request (records_url env fm) .GET none tok

/-- The GET request `get_records` issues. -/
def range_request (env : Option String) (fm : Filemaker) (start limit : Nat)
    (tok : String) : Request :=
  bearer_request (records_range_url env fm start limit) .GET none tok

/-- The DELETE request `delete_record` issues. -/
def delete_request (env : Option String) (fm : Filemaker) (id : Nat)
    (tok : String) : Request :=
  bearer_request (record_id_url env fm id) .DELETE none tok

/-- Upstream body carrying a session token, `{"response": {"token": t}}`. -/
def mk_token_body (token : String) : Json :=
  Json.obj [("response", Json.obj [("token", Json.str token)])]

/-- Upstream body announcing a total record count. -/
def mk_count_body (n : Nat) : Json :=
  Json.obj [("response",
    Json.obj [("dataInfo", Json.obj [("totalRecordCount", Json.num (Int.ofNat n))])])]

/-- Upstream body carrying a `response.data` array of records. -/
def mk_data_body (records : List Json) : Json :=
  Json.obj [("response", Json.obj [("data", Json.arr records)])]

/-- Whether the `clear_database` loop deletes the given record successfully:
its `recordId` is a string parsing as `u64` and the DELETE round trip
returns a JSON object. -/
def record_delete_ok (fm : Filemaker) (env : Option String) (world : World)
    (record : Json) : Bool :=
  match record_id_of record with
  | none => false
  | some id_str =>
    match parse_u64 id_str with
    | none => false
    | some id =>
      match (delete_record fm env world id).1 with
      | .ok _ => true
      | .error _ => false

/-- The requests the `clear_database` loop issues while handling one record
(empty when the record's id is missing or unparseable, since the loop stops
before any request). -/
def record_delete_trace (fm : Filemaker) (env : Option String) (world : World)
    (record : Json) : List Request :=
  match record_id_of record with
  | none => []
  | some id_str =>
    match parse_u64 id_str with
    | none => []
    | some id => (delete_record fm env world id).2.2

/-- Stated from the claim's words: a character requires percent-encoding in a
URL path when it is not an RFC 3986 `pchar` or segment separator — not
unreserved (ALPHA / DIGIT / `-` / `.` / `_` / `~`), not a sub-delimiter, and
not `:`, `@` or `/`.  (`Char.ofNat 39` is the single-quote sub-delimiter.) -/
def requires_percent_encoding_in_path (c : Char) : Bool :=
  !(c.isAlphanum || c == '-' || c == '.' || c == '_' || c == '~' ||
    c == '!' || c == '$' || c == '&' || c == Char.ofNat 39 || c == '(' ||
    c == ')' || c == '*' || c == '+' || c == ',' || c == ';' || c == '=' ||
    c == ':' || c == '@' || c == '/')

/-- Fixture: a world that always answers 200 with a session token. -/
def token_world : World :=
  fun _ => some { status := 200, body := some (mk_token_body "T") }

/-- Fixture: a world answering status 500 with a token body. -/
def non2xx_token_world : World :=
  fun _ => some { status := 500, body := some (mk_token_body "T") }

/-- Fixture: an upstream body with no `response.recordId` member. -/
def no_record_id_body : Json := Json.obj [("messages", Json.arr [])]

/-- Fixture: a world that always answers 200 with `no_record_id_body`. -/
def no_record_id_world : World :=
  fun _ => some { status := 200, body := some no_record_id_body }

/-- Fixture: a world that always reports a total record count of `n`. -/
def count_world (n : Nat) : World :=
  fun _ => some { status := 200, body := some (mk_count_body n) }

/-- Fixture: a record whose `recordId` is the string "1". -/
def good_record : Json :=
  Json.obj [("recordId", Json.str "1"), ("fieldData", Json.obj [])]

/-- Fixture: a record with no `recordId` member. -/
def bad_record : Json := Json.obj [("fieldData", Json.obj [])]

/-- Fixture: a world serving a clear-database run over the given handle:
count 2, then `[good_record, bad_record]`, and succeeding on every DELETE. -/
def clear_world (fm : Filemaker) (env : Option String) : World := fun req =>
  match req.method with
  | .DELETE => some { status := 200, body := some (Json.obj []) }
  | .GET =>
    if req.url = records_url env fm then
      some { status := 200, body := some (mk_count_body 2) }
    else
      some { status := 200, body := some (mk_data_body [good_record, bad_record]) }
  | _ => none

/-- Fixture: the handle used by concrete witnesses. -/
def w_fm : Filemaker := { database := "db", table := "tbl", token := some "T" }

/-- Fixture: the base URL used by concrete witnesses. -/
def w_env : Option String := some "http://s"

/-- Fixture: a record whose `fieldData` has two ordinary keys and one
global (`g_`-prefixed) key. -/
def c8_record : Json :=
  Json.obj [("fieldData",
    Json.obj [("name", Json.str "x"), ("g_global", Json.str "y"),
              ("age", Json.num 3)])]

/-- Fixture: an upstream body whose `response.data` is present but not an
array. -/
def non_array_data_body : Json :=
  Json.obj [("response", Json.obj [("data", Json.str "not an array")])]

/-- Fixture: an upstream body whose `response` has no `data` member. -/
def no_data_body : Json := Json.obj [("response", Json.obj [])]

/-- Fixture: a world that always answers 200 with `non_array_data_body`. -/
def non_array_data_world : World :=
  fun _ => some { status := 200, body := some non_array_data_body }

/-- Fixture: a world that always answers 200 with `no_data_body`. -/
def no_data_world : World :=
  fun _ => some { status := 200, body := some no_data_body }

/-! ### Handle-state preservation lemmas

Every method of the embedding returns the post-state of the handle; the
following lemmas record that no operation ever writes to it (the Rust code
only ever locks and clones the token). -/

theorem authenticated_request_fm (fm : Filemaker) (world : World) (url : String)
    (method : Method) (body : Option Json) :
    (authenticated_request fm world url method body).2.1 = fm := by
  unfold authenticated_request
  cases fm.token with
  | none => rfl
  | some tok =>
    dsimp only
    cases world (bearer_request url method body tok) with
    | none => rfl
    | some resp =>
      obtain ⟨st, rbody⟩ := resp
      cases rbody with
      | none => rfl
      | some json => rfl

theorem get_records_fm (fm : Filemaker) (env : Option String) (world : World)
    (start limit : Nat) : (get_records fm env world start limit).2.1 = fm := by
  have h2 := authenticated_request_fm fm world (records_range_url env fm start limit) .GET none
  unfold get_records
  split
  next e fm1 tr h =>
    rw [h] at h2
    exact h2
  next response fm1 tr h =>
    rw [h] at h2
    split
    next => exact h2
    next => exact h2

theorem get_number_of_records_fm (fm : Filemaker) (env : Option String)
    (world : World) : (get_number_of_records fm env world).2.1 = fm := by
  have h2 := authenticated_request_fm fm world (records_url env fm) .GET none
  unfold get_number_of_records
  split
  next e fm1 tr h =>
    rw [h] at h2
    exact h2
  next response fm1 tr h =>
    rw [h] at h2
    split
    next => exact h2
    next => exact h2

theorem get_all_records_fm (fm : Filemaker) (env : Option String)
    (world : World) : (get_all_records fm env world).2.1 = fm := by
  have h2 := get_number_of_records_fm fm env world
  unfold get_all_records
  split
  next e fm1 tr h =>
    rw [h] at h2
    exact h2
  next n fm1 tr h =>
    rw [h] at h2
    have h4 := get_records_fm fm1 env world 1 n
    split
    next r fm2 tr2 h3 =>
      rw [h3] at h4
      exact h4.trans h2

theorem search_fm (fm : Filemaker) (env : Option String) (world : World)
    (query : List (List (String × String))) (sort : List String)
    (ascending : Bool) : (search fm env world query sort ascending).2.1 = fm := by
  have h2 := authenticated_request_fm fm world (find_url env fm) .POST
    (some (search_body query sort ascending))
  unfold search
  split
  next e fm1 tr h =>
    rw [h] at h2
    exact h2
  next response fm1 tr h =>
    rw [h] at h2
    split
    next => exact h2
    next => exact h2

theorem advanced_search_fm (fm : Filemaker) (env : Option String) (world : World)
    (fields : List (String × Json)) (sort : List String) (ascending : Bool) :
    (advanced_search fm env world fields sort ascending).2.1 = fm := by
  have h2 := authenticated_request_fm fm world (find_url env fm) .POST
    (some (advanced_search_body fields sort ascending))
  unfold advanced_search
  split
  next e fm1 tr h =>
    rw [h] at h2
    exact h2
  next response fm1 tr h =>
    rw [h] at h2
    split
    next => exact h2
    next => exact h2

theorem get_record_by_id_fm (fm : Filemaker) (env : Option String)
    (world : World) (id : Nat) : (get_record_by_id fm env world id).2.1 = fm := by
  have h2 := authenticated_request_fm fm world (record_id_url env fm id) .GET none
  unfold get_record_by_id
  split
  next e fm1 tr h =>
    rw [h] at h2
    exact h2
  next response fm1 tr h =>
    rw [h] at h2
    split
    next =>
      split
      next => exact h2
      next => exact h2
    next => exact h2

theorem add_record_fm (fm : Filemaker) (env : Option String) (world : World)
    (field_data : List (String × Json)) :
    (add_record fm env world field_data).2.1 = fm := by
  have h2 := authenticated_request_fm fm world (records_url env fm) .POST
    (some (Json.obj [("fieldData", Json.obj field_data)]))
  unfold add_record
  dsimp only
  split
  next e fm1 tr h =>
    rw [h] at h2
    exact h2
  next response fm1 tr h =>
    rw [h] at h2
    split
    next record_id_str hrid =>
      split
      next record_id hparse =>
        have h4 := get_record_by_id_fm fm1 env world record_id
        split
        next e fm2 tr2 h3 =>
          rw [h3] at h4
          exact h4.trans h2
        next added fm2 tr2 h3 =>
          rw [h3] at h4
          exact h4.trans h2
      next hparse => exact h2
    next hrid => exact h2

theorem update_record_fm (fm : Filemaker) (env : Option String) (world : World)
    (id : Nat) (field_data : List (String × Json)) :
    (update_record fm env world id field_data).2.1 = fm := by
  have h2 := authenticated_request_fm fm world (record_id_url env fm id) .PATCH
    (some (Json.obj [("fieldData", Json.obj field_data)]))
  unfold update_record
  dsimp only
  exact h2

theorem delete_record_fm (fm : Filemaker) (env : Option String) (world : World)
    (id : Nat) : (delete_record fm env world id).2.1 = fm := by
  have h2 := authenticated_request_fm fm world (record_id_url env fm id) .DELETE none
  unfold delete_record
  split
  next e fm1 tr h =>
    rw [h] at h2
    exact h2
  next response fm1 tr h =>
    rw [h] at h2
    split
    next => exact h2
    next => exact h2

theorem delete_records_loop_fm (env : Option String) (world : World) :
    ∀ (records : List Json) (fm : Filemaker),
      (delete_records_loop fm env world records).2.1 = fm := by
  intro records
  induction records with
  | nil =>
    intro fm
    rfl
  | cons record rest ih =>
    intro fm
    unfold delete_records_loop
    split
    next id_str hid =>
      split
      next id hparse =>
        have h2 := delete_record_fm fm env world id
        split
        next e fm1 tr h =>
          rw [h] at h2
          exact h2
        next v fm1 tr h =>
          rw [h] at h2
          have h4 := ih fm1
          split
          next r fm2 tr2 h3 =>
            rw [h3] at h4
            exact h4.trans h2
      next hparse => rfl
    next hid => rfl

theorem clear_database_fm (fm : Filemaker) (env : Option String) (world : World) :
    (clear_database fm env world).2.1 = fm := by
  have h2 := get_number_of_records_fm fm env world
  unfold clear_database
  split
  next e fm1 tr h =>
    rw [h] at h2
    exact h2
  next n fm1 tr h =>
    rw [h] at h2
    split
    next hn => exact h2
    next hn =>
      have h4 := get_records_fm fm1 env world 1 n
      split
      next e fm2 tr2 h3 =>
        rw [h3] at h4
        exact h4.trans h2
      next records fm2 tr2 h3 =>
        rw [h3] at h4
        have h6 := delete_records_loop_fm env world records fm2
        split
        next r fm3 tr3 h5 =>
          rw [h5] at h6
          exact (h6.trans h4).trans h2

theorem get_row_names_fm (fm : Filemaker) (env : Option String) (world : World) :
    (get_row_names fm env world).2.1 = fm := by
  have h2 := get_records_fm fm env world 1 1
  unfold get_row_names
  split
  next e fm1 tr h =>
    rw [h] at h2
    exact h2
  next records fm1 tr h =>
    rw [h] at h2
    split
    next => exact h2
    next => exact h2

theorem new_characterization (env : Option String) (world : World)
    (username password database table : String) :
    Filemaker.new env world username password database table =
      (get_session_token env world database username password).map
        (fun tok => { database := encode_parameter database
                      table := encode_parameter table
                      token := some tok }) := by
  unfold Filemaker.new
  cases get_session_token env world database username password with
  | error e => rfl
  | ok token => rfl

/-! ### Claim theorems -/

/-- C1: For every `Filemaker` handle the bearer token is set exactly once, at
construction: `Filemaker::new` stores exactly the token returned by the
session handshake, and every subsequent operation (`get_records`,
`get_all_records`, `get_number_of_records`, `search`, `advanced_search`,
`add_record`, `update_record`, `get_record_by_id`, `delete_record`,
`clear_database`, `get_row_names`) leaves the stored token unchanged — the
post-state token always equals the pre-state token. -/
theorem token_set_once_and_never_modified :
    (∀ env world username password database table,
      Filemaker.new env world username password database table =
        (get_session_token env world database username password).map
          (fun tok => { database := encode_parameter database
                        table := encode_parameter table
                        token := some tok })) ∧
    (∀ fm env world start limit,
      ((get_records fm env world start limit).2.1).token = fm.token) ∧
    (∀ fm env world,
      ((get_all_records fm env world).2.1).token = fm.token) ∧
    (∀ fm env world,
      ((get_number_of_records fm env world).2.1).token = fm.token) ∧
    (∀ fm env world query sort ascending,
      ((search fm env world query sort ascending).2.1).token = fm.token) ∧
    (∀ fm env world fields sort ascending,
      ((advanced_search fm env world fields sort ascending).2.1).token = fm.token) ∧
    (∀ fm env world field_data,
      ((add_record fm env world field_data).2.1).token = fm.token) ∧
    (∀ fm env world id field_data,
      ((update_record fm env world id field_data).2.1).token = fm.token) ∧
    (∀ fm env world id,
      ((get_record_by_id fm env world id).2.1).token = fm.token) ∧
    (∀ fm env world id,
      ((delete_record fm env world id).2.1).token = fm.token) ∧
    (∀ fm env world,
      ((clear_database fm env world).2.1).token = fm.token) ∧
    (∀ fm env world,
      ((get_row_names fm env world).2.1).token = fm.token) := by
  refine ⟨?_, ?_, ?_, ?_, ?_, ?_, ?_, ?_, ?_, ?_, ?_, ?_⟩
  · exact fun env world username password database table =>
      new_characterization env world username password database table
  · exact fun fm env world start limit =>
      congrArg Filemaker.token (get_records_fm fm env world start limit)
  · exact fun fm env world =>
      congrArg Filemaker.token (get_all_records_fm fm env world)
  · exact fun fm env world =>
      congrArg Filemaker.token (get_number_of_records_fm fm env world)
  · exact fun fm env world query sort ascending =>
      congrArg Filemaker.token (search_fm fm env world query sort ascending)
  · exact fun fm env world fields sort ascending =>
      congrArg Filemaker.token (advanced_search_fm fm env world fields sort ascending)
  · exact fun fm env world field_data =>
      congrArg Filemaker.token (add_record_fm fm env world field_data)
  · exact fun fm env world id field_data =>
      congrArg Filemaker.token (update_record_fm fm env world id field_data)
  · exact fun fm env world id =>
      congrArg Filemaker.token (get_record_by_id_fm fm env world id)
  · exact fun fm env world id =>
      congrArg Filemaker.token (delete_record_fm fm env world id)
  · exact fun fm env world =>
      congrArg Filemaker.token (clear_database_fm fm env world)
  · exact fun fm env world =>
      congrArg Filemaker.token (get_row_names_fm fm env world)

/-- C4: `get_all_records` proceeds in exactly two steps: it first obtains the
total record count; if that fails the error is propagated unchanged and no
record fetch is issued (the request trace is exactly the count call's trace);
if it returns `n`, the method performs a single `get_records` call with
offset 1 and limit `n` and returns exactly that call's result, the count
call's requests preceding the fetch call's requests. -/
theorem get_all_records_count_then_fetch :
    (∀ fm env world e fm1 tr,
      get_number_of_records fm env world = (.error e, fm1, tr) →
        get_all_records fm env world = (.error e, fm1, tr)) ∧
    (∀ fm env world n fm1 tr,
      get_number_of_records fm env world = (.ok n, fm1, tr) →
        get_all_records fm env world =
          ((get_records fm env world 1 n).1,
           (get_records fm env world 1 n).2.1,
           tr ++ (get_records fm env world 1 n).2.2)) := by
  constructor
  · intro fm env world e fm1 tr h
    unfold get_all_records
    rw [h]
  · intro fm env world n fm1 tr h
    have hfm : fm1 = fm := by
      have h2 := get_number_of_records_fm fm env world
      rw [h] at h2
      exact h2
    subst hfm
    unfold get_all_records
    rw [h]

/-- Witness for C4: a transport-failing world propagates the count error with
no fetch request; a world reporting count 3 makes `get_all_records` return
the result of `get_records` with offset 1 and limit 3. -/
theorem get_all_records_count_then_fetch_witness :
    (get_all_records w_fm w_env world_transport_fail =
      (.error .transport, w_fm, [count_request w_env w_fm "T"])) ∧
    (get_all_records w_fm w_env (count_world 3) =
      ((get_records w_fm w_env (count_world 3) 1 3).1,
       (get_records w_fm w_env (count_world 3) 1 3).2.1,
       [count_request w_env w_fm "T"] ++
         (get_records w_fm w_env (count_world 3) 1 3).2.2)) :=
  ⟨get_all_records_count_then_fetch.1 w_fm w_env world_transport_fail .transport
      w_fm [count_request w_env w_fm "T"] rfl,
   get_all_records_count_then_fetch.2 w_fm w_env (count_world 3) 3
      w_fm [count_request w_env w_fm "T"] rfl⟩

/-- C9: when `get_number_of_records` reports zero records, `clear_database`
returns `Ok(())` at once and its request trace is exactly the count call's
trace: no record fetch and no delete request is issued. -/
theorem clear_database_zero_records_noop (fm : Filemaker) (env : Option String)
    (world : World) (fm1 : Filemaker) (tr : List Request)
    (hcount : get_number_of_records fm env world = (.ok 0, fm1, tr)) :
    clear_database fm env world = (.ok (), fm1, tr) := by
  unfold clear_database
  rw [hcount]
  rfl

/-- Witness for C9: a world reporting count 0 makes `clear_database` succeed
with only the count request issued. -/
theorem clear_database_zero_records_noop_witness :
    clear_database w_fm w_env (count_world 0) =
      (.ok (), w_fm, [count_request w_env w_fm "T"]) :=
  clear_database_zero_records_noop w_fm w_env (count_world 0) w_fm
    [count_request w_env w_fm "T"] rfl

/-- C5 counterexample: a non-2xx (status 500) upstream response whose body
carries `response.token` makes `get_session_token` succeed — the claim that
acquisition fails whenever the response is non-2xx is false of the code,
which never inspects the status. -/
theorem session_token_ok_despite_non2xx_status :
    non2xx_token_world (session_request w_env "db" "u" "p") =
      some { status := 500, body := some (mk_token_body "T") } ∧
    get_session_token w_env non2xx_token_world "db" "u" "p" = .ok "T" :=
  ⟨rfl, rfl⟩

/-- C5 (amended): session-token acquisition succeeds exactly when the request
transport works, the body parses as JSON, and the body carries a string-valued
`response.token` — in which case exactly that string is returned — and fails
with an error exactly when the transport fails, the body fails to parse, or
the parsed body lacks such a token; the HTTP status code plays no role in
either characterization. -/
theorem session_token_ignores_status :
    (∀ env world database username password token,
      get_session_token env world database username password = .ok token ↔
        ∃ st json,
          world (session_request env database username password) =
            some { status := st, body := some json } ∧
          extract_token json = some token) ∧
    (∀ env world database username password,
      isError (get_session_token env world database username password) = true ↔
        (world (session_request env database username password) = none ∨
         (∃ st, world (session_request env database username password) =
            some { status := st, body := none }) ∨
         (∃ st json,
            world (session_request env database username password) =
              some { status := st, body := some json } ∧
            extract_token json = none))) := by
  constructor
  · intro env world database username password token
    unfold get_session_token
    cases hw : world (session_request env database username password) with
    | none => simp
    | some resp =>
      obtain ⟨st0, b⟩ := resp
      cases b with
      | none => simp
      | some json0 =>
        cases ht : extract_token json0 with
        | none => simp [ht]
        | some t =>
          simp only [ht]
          constructor
          · intro h
            injection h with h
            exact ⟨st0, json0, rfl, by rw [ht, h]⟩
          · rintro ⟨st, json, heq, hext⟩
            injection heq with heq
            injection heq with h1 h2
            injection h2 with h2
            rw [← h2, ht] at hext
            injection hext with hext
            rw [hext]
  · intro env world database username password
    unfold get_session_token
    cases hw : world (session_request env database username password) with
    | none => simp [isError]
    | some resp =>
      obtain ⟨st0, b⟩ := resp
      cases b with
      | none => simp [isError]
      | some json0 =>
        cases ht : extract_token json0 with
        | none =>
          simp only [isError, ht]
          simp
          exact ⟨st0, json0, ⟨rfl, rfl⟩, ht⟩
        | some t => simp [isError, ht]

/-! ### `clear_database` loop lemmas -/

theorem delete_records_loop_ok_iff (fm : Filemaker) (env : Option String)
    (world : World) : ∀ records : List Json,
    (delete_records_loop fm env world records).1 = .ok () ↔
      ∀ r ∈ records, record_delete_ok fm env world r = true := by
  intro records
  induction records with
  | nil => simp [delete_records_loop]
  | cons record rest ih =>
    unfold delete_records_loop
    cases hid : record_id_of record with
    | none =>
      dsimp only
      constructor
      · intro h
        exact Except.noConfusion h
      · intro h
        have hr := h record (List.mem_cons_self record rest)
        unfold record_delete_ok at hr
        rw [hid] at hr
        exact Bool.noConfusion hr
    | some id_str =>
      dsimp only
      cases hp : parse_u64 id_str with
      | none =>
        dsimp only
        constructor
        · intro h
          exact Except.noConfusion h
        · intro h
          have hr := h record (List.mem_cons_self record rest)
          unfold record_delete_ok at hr
          rw [hid] at hr
          dsimp only at hr
          rw [hp] at hr
          exact Bool.noConfusion hr
      | some id =>
        dsimp only
        rcases hd : delete_record fm env world id with ⟨dr, fm1, dtr⟩
        have hfm : fm = fm1 := by
          have h2 := delete_record_fm fm env world id
          rw [hd] at h2
          exact h2.symm
        subst hfm
        cases dr with
        | error e =>
          dsimp only
          constructor
          · intro h
            exact Except.noConfusion h
          · intro h
            have hr := h record (List.mem_cons_self record rest)
            unfold record_delete_ok at hr
            rw [hid] at hr
            dsimp only at hr
            rw [hp] at hr
            dsimp only at hr
            rw [hd] at hr
            exact Bool.noConfusion hr
        | ok v =>
          dsimp only
          rcases hl : delete_records_loop fm env world rest with ⟨r2, fm2, tr2⟩
          rw [hl] at ih
          dsimp only at ih ⊢
          constructor
          · intro h r hr
            rcases List.mem_cons.mp hr with rfl | hr2
            · unfold record_delete_ok
              rw [hid]
              dsimp only
              rw [hp]
              dsimp only
              rw [hd]
            · exact ih.mp h r hr2
          · intro h
            exact ih.mpr (fun r hr => h r (List.mem_cons_of_mem record hr))

theorem delete_records_loop_abort (fm : Filemaker) (env : Option String)
    (world : World) (bad : Json) (post : List Json)
    (hbad : record_delete_ok fm env world bad = false) :
    ∀ pre : List Json,
      (∀ r ∈ pre, record_delete_ok fm env world r = true) →
      isError (delete_records_loop fm env world (pre ++ bad :: post)).1 = true ∧
      (delete_records_loop fm env world (pre ++ bad :: post)).2.2 =
        (pre.map (record_delete_trace fm env world)).flatten ++
          record_delete_trace fm env world bad := by
  intro pre
  induction pre with
  | nil =>
    intro _
    rw [List.nil_append]
    unfold delete_records_loop
    cases hid : record_id_of bad with
    | none =>
      dsimp only
      refine ⟨rfl, ?_⟩
      unfold record_delete_trace
      rw [hid]
      rfl
    | some id_str =>
      dsimp only
      cases hp : parse_u64 id_str with
      | none =>
        dsimp only
        refine ⟨rfl, ?_⟩
        unfold record_delete_trace
        rw [hid]
        dsimp only
        rw [hp]
        rfl
      | some id =>
        dsimp only
        rcases hd : delete_record fm env world id with ⟨dr, fm1, dtr⟩
        cases dr with
        | error e =>
          dsimp only
          refine ⟨rfl, ?_⟩
          unfold record_delete_trace
          rw [hid]
          dsimp only
          rw [hp]
          dsimp only
          rw [hd]
          rfl
        | ok v =>
          exfalso
          unfold record_delete_ok at hbad
          rw [hid] at hbad
          dsimp only at hbad
          rw [hp] at hbad
          dsimp only at hbad
          rw [hd] at hbad
          exact Bool.noConfusion hbad
  | cons p pre2 ih =>
    intro hpre
    have hok := hpre p (List.mem_cons_self p pre2)
    unfold record_delete_ok at hok
    cases hid : record_id_of p with
    | none =>
      rw [hid] at hok
      exact Bool.noConfusion hok
    | some id_str =>
      rw [hid] at hok
      dsimp only at hok
      cases hp : parse_u64 id_str with
      | none =>
        rw [hp] at hok
        exact Bool.noConfusion hok
      | some id =>
        rw [hp] at hok
        dsimp only at hok
        rcases hd : delete_record fm env world id with ⟨dr, fm1, dtr⟩
        have hfm : fm = fm1 := by
          have h2 := delete_record_fm fm env world id
          rw [hd] at h2
          exact h2.symm
        subst hfm
        cases dr with
        | error e =>
          rw [hd] at hok
          exact Bool.noConfusion hok
        | ok v =>
          have hrest := ih (fun r hr => hpre r (List.mem_cons_of_mem p hr))
          rw [List.cons_append]
          unfold delete_records_loop
          rw [hid]
          dsimp only
          rw [hp]
          dsimp only
          rw [hd]
          dsimp only
          rcases hl : delete_records_loop fm env world (pre2 ++ bad :: post) with ⟨r2, fm2, tr2⟩
          rw [hl] at hrest
          dsimp only at hrest ⊢
          refine ⟨hrest.1, ?_⟩
          rw [hrest.2]
          have htp : record_delete_trace fm env world p = dtr := by
            unfold record_delete_trace
            rw [hid]
            dsimp only
            rw [hp]
            dsimp only
            rw [hd]
          simp only [List.map_cons, List.flatten_cons, htp, List.append_assoc]


/-- C3: `clear_database` (for a non-zero count, after fetching the records
with offset 1 and the count as limit) runs the per-record deletion loop and
returns its result with the count and fetch requests prepended; the loop
succeeds exactly when every record's deletion succeeds, and whenever the
records are `pre ++ bad :: post` with every record of `pre` deletable and
`bad` failing (missing/unparseable `recordId` or a failing delete), the loop
returns an error and its request trace consists only of the deletions of
`pre` followed by the attempted deletion of `bad` — nothing is issued for
`post`. -/
theorem clear_database_sequential_abort_on_first_failure :
    (∀ fm env world n fm1 fm2 tr tr2 records,
      get_number_of_records fm env world = (.ok n, fm1, tr) →
      n ≠ 0 →
      get_records fm env world 1 n = (.ok records, fm2, tr2) →
      clear_database fm env world =
        ((delete_records_loop fm env world records).1,
         (delete_records_loop fm env world records).2.1,
         tr ++ tr2 ++ (delete_records_loop fm env world records).2.2)) ∧
    (∀ fm env world records,
      (delete_records_loop fm env world records).1 = .ok () ↔
        ∀ r ∈ records, record_delete_ok fm env world r = true) ∧
    (∀ fm env world bad post pre,
      record_delete_ok fm env world bad = false →
      (∀ r ∈ pre, record_delete_ok fm env world r = true) →
      isError (delete_records_loop fm env world (pre ++ bad :: post)).1 = true ∧
      (delete_records_loop fm env world (pre ++ bad :: post)).2.2 =
        (pre.map (record_delete_trace fm env world)).flatten ++
          record_delete_trace fm env world bad) := by
  refine ⟨?_, ?_, ?_⟩
  · intro fm env world n fm1 fm2 tr tr2 records hcount hn hrecords
    have hfm1 : fm = fm1 := by
      have h2 := get_number_of_records_fm fm env world
      rw [hcount] at h2
      exact h2.symm
    subst hfm1
    have hfm2 : fm = fm2 := by
      have h2 := get_records_fm fm env world 1 n
      rw [hrecords] at h2
      exact h2.symm
    subst hfm2
    unfold clear_database
    rw [hcount]
    dsimp only
    rw [if_neg hn, hrecords]
  · exact fun fm env world records => delete_records_loop_ok_iff fm env world records
  · exact fun fm env world bad post pre hbad hpre =>
      delete_records_loop_abort fm env world bad post hbad pre hpre

/-- Witness for C3: over the `clear_world` fixture (count 2, records
`[good_record, bad_record]`, all DELETEs succeeding), `clear_database`
reduces to the loop, the loop's success is equivalent to both records being
deletable, and with `pre = [good_record]`, `bad = bad_record` the loop errors
with only `good_record`'s deletion in the trace. -/
theorem clear_database_sequential_abort_witness :
    (clear_database w_fm w_env (clear_world w_fm w_env) =
      ((delete_records_loop w_fm w_env (clear_world w_fm w_env)
          [good_record, bad_record]).1,
       (delete_records_loop w_fm w_env (clear_world w_fm w_env)
          [good_record, bad_record]).2.1,
       [count_request w_env w_fm "T"] ++ [range_request w_env w_fm 1 2 "T"] ++
         (delete_records_loop w_fm w_env (clear_world w_fm w_env)
            [good_record, bad_record]).2.2)) ∧
    ((delete_records_loop w_fm w_env (clear_world w_fm w_env)
        [good_record, bad_record]).1 = .ok () ↔
      ∀ r ∈ [good_record, bad_record],
        record_delete_ok w_fm w_env (clear_world w_fm w_env) r = true) ∧
    (isError (delete_records_loop w_fm w_env (clear_world w_fm w_env)
        ([good_record] ++ bad_record :: [])).1 = true ∧
     (delete_records_loop w_fm w_env (clear_world w_fm w_env)
        ([good_record] ++ bad_record :: [])).2.2 =
       ([good_record].map
          (record_delete_trace w_fm w_env (clear_world w_fm w_env))).flatten ++
         record_delete_trace w_fm w_env (clear_world w_fm w_env) bad_record) :=
  ⟨clear_database_sequential_abort_on_first_failure.1 w_fm w_env
      (clear_world w_fm w_env) 2 w_fm w_fm [count_request w_env w_fm "T"]
      [range_request w_env w_fm 1 2 "T"] [good_record, bad_record]
      rfl (by decide) rfl,
   clear_database_sequential_abort_on_first_failure.2.1 w_fm w_env
      (clear_world w_fm w_env) [good_record, bad_record],
   clear_database_sequential_abort_on_first_failure.2.2 w_fm w_env
      (clear_world w_fm w_env) bad_record [] [good_record] rfl
      (by
        intro r hr
        rw [List.mem_singleton.mp hr]
        rfl)⟩

/-! ### Error-propagation lemmas for worlds that never yield a JSON body -/

theorem authenticated_request_no_json (fm : Filemaker) (world : World)
    (url : String) (method : Method) (body : Option Json)
    (h : world_yields_no_json world) :
    ∃ e, (authenticated_request fm world url method body).1 = .error e := by
  unfold authenticated_request
  cases fm.token with
  | none => exact ⟨.noToken, rfl⟩
  | some tok =>
    dsimp only
    cases hw : world (bearer_request url method body tok) with
    | none => exact ⟨.transport, rfl⟩
    | some resp =>
      obtain ⟨st, rbody⟩ := resp
      have hb := h _ _ hw
      dsimp only at hb
      subst hb
      exact ⟨.parse, rfl⟩

theorem get_records_no_json (fm : Filemaker) (env : Option String)
    (world : World) (start limit : Nat) (h : world_yields_no_json world) :
    isError (get_records fm env world start limit).1 = true := by
  obtain ⟨e, he⟩ := authenticated_request_no_json fm world
    (records_range_url env fm start limit) .GET none h
  unfold get_records
  rcases hx : authenticated_request fm world (records_range_url env fm start limit)
      .GET none with ⟨r, fm1, tr⟩
  rw [hx] at he
  cases r with
  | error e2 => rfl
  | ok response => exact Except.noConfusion he

theorem get_number_of_records_no_json (fm : Filemaker) (env : Option String)
    (world : World) (h : world_yields_no_json world) :
    isError (get_number_of_records fm env world).1 = true := by
  obtain ⟨e, he⟩ := authenticated_request_no_json fm world (records_url env fm)
    .GET none h
  unfold get_number_of_records
  rcases hx : authenticated_request fm world (records_url env fm) .GET none
    with ⟨r, fm1, tr⟩
  rw [hx] at he
  cases r with
  | error e2 => rfl
  | ok response => exact Except.noConfusion he

theorem get_all_records_no_json (fm : Filemaker) (env : Option String)
    (world : World) (h : world_yields_no_json world) :
    isError (get_all_records fm env world).1 = true := by
  have hc := get_number_of_records_no_json fm env world h
  unfold get_all_records
  rcases hx : get_number_of_records fm env world with ⟨r, fm1, tr⟩
  rw [hx] at hc
  cases r with
  | error e2 => rfl
  | ok n => exact Bool.noConfusion hc

theorem search_no_json (fm : Filemaker) (env : Option String) (world : World)
    (query : List (List (String × String))) (sort : List String)
    (ascending : Bool) (h : world_yields_no_json world) :
    isError (search fm env world query sort ascending).1 = true := by
  obtain ⟨e, he⟩ := authenticated_request_no_json fm world (find_url env fm)
    .POST (some (search_body query sort ascending)) h
  unfold search
  rcases hx : authenticated_request fm world (find_url env fm) .POST
      (some (search_body query sort ascending)) with ⟨r, fm1, tr⟩
  rw [hx] at he
  cases r with
  | error e2 => rfl
  | ok response => exact Except.noConfusion he

theorem advanced_search_no_json (fm : Filemaker) (env : Option String)
    (world : World) (fields : List (String × Json)) (sort : List String)
    (ascending : Bool) (h : world_yields_no_json world) :
    isError (advanced_search fm env world fields sort ascending).1 = true := by
  obtain ⟨e, he⟩ := authenticated_request_no_json fm world (find_url env fm)
    .POST (some (advanced_search_body fields sort ascending)) h
  unfold advanced_search
  rcases hx : authenticated_request fm world (find_url env fm) .POST
      (some (advanced_search_body fields sort ascending)) with ⟨r, fm1, tr⟩
  rw [hx] at he
  cases r with
  | error e2 => rfl
  | ok response => exact Except.noConfusion he

theorem add_record_no_json (fm : Filemaker) (env : Option String)
    (world : World) (field_data : List (String × Json))
    (h : world_yields_no_json world) :
    isError (add_record fm env world field_data).1 = true := by
  obtain ⟨e, he⟩ := authenticated_request_no_json fm world (records_url env fm)
    .POST (some (Json.obj [("fieldData", Json.obj field_data)])) h
  unfold add_record
  dsimp only
  rcases hx : authenticated_request fm world (records_url env fm) .POST
      (some (Json.obj [("fieldData", Json.obj field_data)])) with ⟨r, fm1, tr⟩
  rw [hx] at he
  cases r with
  | error e2 => rfl
  | ok response => exact Except.noConfusion he

theorem update_record_no_json (fm : Filemaker) (env : Option String)
    (world : World) (id : Nat) (field_data : List (String × Json))
    (h : world_yields_no_json world) :
    isError (update_record fm env world id field_data).1 = true := by
  obtain ⟨e, he⟩ := authenticated_request_no_json fm world (record_id_url env fm id)
    .PATCH (some (Json.obj [("fieldData", Json.obj field_data)])) h
  unfold update_record
  dsimp only
  show isError (authenticated_request fm world (record_id_url env fm id) .PATCH
    (some (Json.obj [("fieldData", Json.obj field_data)]))).1 = true
  rw [he]
  rfl

theorem get_record_by_id_no_json (fm : Filemaker) (env : Option String)
    (world : World) (id : Nat) (h : world_yields_no_json world) :
    isError (get_record_by_id fm env world id).1 = true := by
  obtain ⟨e, he⟩ := authenticated_request_no_json fm world (record_id_url env fm id)
    .GET none h
  unfold get_record_by_id
  rcases hx : authenticated_request fm world (record_id_url env fm id) .GET none
    with ⟨r, fm1, tr⟩
  rw [hx] at he
  cases r with
  | error e2 => rfl
  | ok response => exact Except.noConfusion he

theorem delete_record_no_json (fm : Filemaker) (env : Option String)
    (world : World) (id : Nat) (h : world_yields_no_json world) :
    isError (delete_record fm env world id).1 = true := by
  obtain ⟨e, he⟩ := authenticated_request_no_json fm world (record_id_url env fm id)
    .DELETE none h
  unfold delete_record
  rcases hx : authenticated_request fm world (record_id_url env fm id) .DELETE none
    with ⟨r, fm1, tr⟩
  rw [hx] at he
  cases r with
  | error e2 => rfl
  | ok response => exact Except.noConfusion he

theorem clear_database_no_json (fm : Filemaker) (env : Option String)
    (world : World) (h : world_yields_no_json world) :
    isError (clear_database fm env world).1 = true := by
  have hc := get_number_of_records_no_json fm env world h
  unfold clear_database
  rcases hx : get_number_of_records fm env world with ⟨r, fm1, tr⟩
  rw [hx] at hc
  cases r with
  | error e2 => rfl
  | ok n => exact Bool.noConfusion hc

theorem get_row_names_no_json (fm : Filemaker) (env : Option String)
    (world : World) (h : world_yields_no_json world) :
    isError (get_row_names fm env world).1 = true := by
  have hc := get_records_no_json fm env world 1 1 h
  unfold get_row_names
  rcases hx : get_records fm env world 1 1 with ⟨r, fm1, tr⟩
  rw [hx] at hc
  cases r with
  | error e2 => rfl
  | ok records => exact Bool.noConfusion hc

theorem get_session_token_no_json (env : Option String) (world : World)
    (database username password : String) (h : world_yields_no_json world) :
    isError (get_session_token env world database username password) = true := by
  unfold get_session_token
  cases hw : world (session_request env database username password) with
  | none => rfl
  | some resp =>
    obtain ⟨st, rbody⟩ := resp
    have hb := h _ _ hw
    dsimp only at hb
    subst hb
    rfl

theorem new_no_json (env : Option String) (world : World)
    (username password database table : String) (h : world_yields_no_json world) :
    isError (Filemaker.new env world username password database table) = true := by
  have hs := get_session_token_no_json env world database username password h
  unfold Filemaker.new
  cases hx : get_session_token env world database username password with
  | error e => rfl
  | ok token =>
    rw [hx] at hs
    exact Bool.noConfusion hs

theorem get_layouts_no_json (env : Option String) (world : World)
    (username password database : String) (h : world_yields_no_json world) :
    isError (get_layouts env world username password database) = true := by
  have hs := get_session_token_no_json env world database username password h
  unfold get_layouts
  cases hx : get_session_token env world database username password with
  | error e => rfl
  | ok token =>
    rw [hx] at hs
    exact Bool.noConfusion hs

theorem get_databases_no_json (env : Option String) (world : World)
    (username password : String) (h : world_yields_no_json world) :
    isError (get_databases env world username password) = true := by
  unfold get_databases
  dsimp only
  cases hw : world { url := fm_base env ++ "/databases", method := .GET
                     body := none, auth := some (.basic username password) } with
  | none => rfl
  | some resp =>
    obtain ⟨st, rbody⟩ := resp
    have hb := h _ _ hw
    dsimp only at hb
    subst hb
    rfl

/-- C2 counterexample: an upstream response lacking `response.recordId` makes
`add_record` return `Ok` (with the success flag false), not an error — the
claim that a missing expected JSON field always yields an error result fails
at `add_record`. -/
theorem add_record_missing_record_id_not_an_error :
    extract_record_id no_record_id_body = none ∧
    (add_record w_fm w_env no_record_id_world []).1 =
      .ok [("success", Json.bool false), ("result", no_record_id_body)] :=
  ⟨rfl, rfl⟩

/-- C2 (amended): over any world that never yields a parsed JSON body (every
request fails in transport or its body fails deserialization), every operation
of the library returns an error; `delete_database` (which never reads a body)
errors on transport failure; but a missing — or unparseable — `recordId`
field in `add_record`'s upstream response does NOT produce an error:
`add_record` returns `Ok` carrying `success = false` and the raw response. -/
theorem failures_error_except_add_record_missing_id :
    (∀ world, world_yields_no_json world →
      (∀ env database username password,
        isError (get_session_token env world database username password) = true) ∧
      (∀ env username password database table,
        isError (Filemaker.new env world username password database table) = true) ∧
      (∀ env username password database,
        isError (get_layouts env world username password database) = true) ∧
      (∀ env username password,
        isError (get_databases env world username password) = true) ∧
      (∀ fm env start limit,
        isError (get_records fm env world start limit).1 = true) ∧
      (∀ fm env, isError (get_all_records fm env world).1 = true) ∧
      (∀ fm env, isError (get_number_of_records fm env world).1 = true) ∧
      (∀ fm env query sort ascending,
        isError (search fm env world query sort ascending).1 = true) ∧
      (∀ fm env fields sort ascending,
        isError (advanced_search fm env world fields sort ascending).1 = true) ∧
      (∀ fm env field_data,
        isError (add_record fm env world field_data).1 = true) ∧
      (∀ fm env id field_data,
        isError (update_record fm env world id field_data).1 = true) ∧
      (∀ fm env id, isError (get_record_by_id fm env world id).1 = true) ∧
      (∀ fm env id, isError (delete_record fm env world id).1 = true) ∧
      (∀ fm env, isError (clear_database fm env world).1 = true) ∧
      (∀ fm env, isError (get_row_names fm env world).1 = true)) ∧
    (∀ env database username password,
      isError (delete_database env world_transport_fail database username password) = true) ∧
    (∀ fm tok env world field_data st body,
      fm.token = some tok →
      world (bearer_request (records_url env fm) .POST
          (some (Json.obj [("fieldData", Json.obj field_data)])) tok) =
        some { status := st, body := some body } →
      (extract_record_id body = none ∨
        ∃ s, extract_record_id body = some s ∧ parse_u64 s = none) →
      (add_record fm env world field_data).1 =
        .ok [("success", Json.bool false), ("result", body)]) := by
  refine ⟨?_, ?_, ?_⟩
  · intro world h
    exact ⟨fun env database username password =>
        get_session_token_no_json env world database username password h,
      fun env username password database table =>
        new_no_json env world username password database table h,
      fun env username password database =>
        get_layouts_no_json env world username password database h,
      fun env username password =>
        get_databases_no_json env world username password h,
      fun fm env start limit => get_records_no_json fm env world start limit h,
      fun fm env => get_all_records_no_json fm env world h,
      fun fm env => get_number_of_records_no_json fm env world h,
      fun fm env query sort ascending =>
        search_no_json fm env world query sort ascending h,
      fun fm env fields sort ascending =>
        advanced_search_no_json fm env world fields sort ascending h,
      fun fm env field_data => add_record_no_json fm env world field_data h,
      fun fm env id field_data =>
        update_record_no_json fm env world id field_data h,
      fun fm env id => get_record_by_id_no_json fm env world id h,
      fun fm env id => delete_record_no_json fm env world id h,
      fun fm env => clear_database_no_json fm env world h,
      fun fm env => get_row_names_no_json fm env world h⟩
  · intro env database username password
    unfold delete_database
    cases hx : get_session_token env world_transport_fail database username password with
    | error e => rfl
    | ok token => rfl
  · intro fm tok env world field_data st body htok hw hbad
    have hauth : authenticated_request fm world (records_url env fm) .POST
        (some (Json.obj [("fieldData", Json.obj field_data)])) =
        (.ok body, fm,
          [bearer_request (records_url env fm) .POST
            (some (Json.obj [("fieldData", Json.obj field_data)])) tok]) := by
      unfold authenticated_request
      rw [htok]
      dsimp only
      rw [hw]
    unfold add_record
    dsimp only
    rw [hauth]
    dsimp only
    rcases hbad with hnone | ⟨s2, hsome, hparse⟩
    · rw [hnone]
    · rw [hsome]
      dsimp only
      rw [hparse]

/-- Witness for C2 (amended): the deserialization-failing world makes
`get_records` error, the transport-failing world makes `get_session_token`
and `delete_database` error, and a concrete response without
`response.recordId` makes `add_record` return `Ok` with `success = false`. -/
theorem failures_error_except_add_record_missing_id_witness :
    isError (get_records w_fm w_env world_parse_fail 1 1).1 = true ∧
    isError (get_session_token w_env world_transport_fail "db" "u" "p") = true ∧
    isError (delete_database w_env world_transport_fail "db" "u" "p") = true ∧
    (add_record w_fm w_env no_record_id_world []).1 =
      .ok [("success", Json.bool false), ("result", no_record_id_body)] :=
  ⟨((failures_error_except_add_record_missing_id.1 world_parse_fail
      (fun req resp h => by injection h with h2; rw [← h2])).2.2.2.2.1)
      w_fm w_env 1 1,
   ((failures_error_except_add_record_missing_id.1 world_transport_fail
      (fun req resp h => Option.noConfusion h)).1) w_env "db" "u" "p",
   failures_error_except_add_record_missing_id.2.1 w_env "db" "u" "p",
   failures_error_except_add_record_missing_id.2.2 w_fm "T" w_env
      no_record_id_world [] 200 no_record_id_body rfl rfl (Or.inl rfl)⟩

/-! ### `encode_parameter` lemmas -/

theorem replace_space_chars_no_space : ∀ l : List Char, ' ' ∉ replace_space_chars l := by
  intro l
  induction l with
  | nil =>
    intro h
    exact List.not_mem_nil ' ' h
  | cons c rest ih =>
    unfold replace_space_chars
    split
    · simp only [List.mem_cons, not_or]
      exact ⟨by decide, by decide, by decide, ih⟩
    · next hc =>
      simp only [List.mem_cons, not_or]
      exact ⟨fun hh => hc hh.symm, ih⟩

theorem replace_space_chars_id : ∀ l : List Char, (∀ c ∈ l, c ≠ ' ') →
    replace_space_chars l = l := by
  intro l
  induction l with
  | nil =>
    intro _
    rfl
  | cons c rest ih =>
    intro h
    unfold replace_space_chars
    rw [if_neg (h c (List.mem_cons_self c rest))]
    rw [ih (fun c2 hc2 => h c2 (List.mem_cons_of_mem c hc2))]

/-- C6 counterexample: `#` requires percent-encoding in a URL path, yet
`encode_parameter` leaves it intact and `Filemaker::new` stores it verbatim
in both the database and table names — the stored names are not URL-encoded
beyond spaces. -/
theorem stored_names_keep_unencoded_hash :
    requires_percent_encoding_in_path '#' = true ∧
    encode_parameter "a#b" = "a#b" ∧
    Filemaker.new w_env token_world "u" "p" "a#b" "t#l" =
      .ok { database := "a#b", table := "t#l", token := some "T" } :=
  ⟨by decide, rfl, rfl⟩

/-- C6 (amended): `Filemaker::new` stores each of the database and table
names with every space replaced by `%20` and no other transformation: the
stored names are `encode_parameter` of the inputs, no space survives
encoding, a single space becomes `%20`, and a string without spaces is
stored verbatim — spaces are percent-encoded, but no other character
requiring percent-encoding is touched. -/
theorem new_stores_space_encoded_names :
    (∀ env world username password database table,
      Filemaker.new env world username password database table =
        (get_session_token env world database username password).map
          (fun tok => { database := encode_parameter database
                        table := encode_parameter table
                        token := some tok })) ∧
    (∀ s, ' ' ∉ (encode_parameter s).toList) ∧
    (encode_parameter " " = "%20") ∧
    (∀ s, (∀ c ∈ s.toList, c ≠ ' ') → encode_parameter s = s) := by
  refine ⟨?_, ?_, ?_, ?_⟩
  · exact fun env world username password database table =>
      new_characterization env world username password database table
  · intro s
    exact replace_space_chars_no_space s.toList
  · rfl
  · intro s h
    unfold encode_parameter
    rw [replace_space_chars_id s.toList h]
    rfl

/-- Witness for C6 (amended): names with spaces are stored with `%20`
substituted, and a space-free name is stored verbatim. -/
theorem new_stores_space_encoded_names_witness :
    Filemaker.new w_env token_world "u" "p" "My Db" "My Table" =
      .ok { database := "My%20Db", table := "My%20Table", token := some "T" } ∧
    encode_parameter "nospace" = "nospace" :=
  ⟨by
    rw [new_stores_space_encoded_names.1 w_env token_world "u" "p" "My Db" "My Table"]
    rfl,
   new_stores_space_encoded_names.2.2.2 "nospace" (by decide)⟩

theorem string_append_right_cancel (e1 e2 suffix : String)
    (h : e1 ++ suffix = e2 ++ suffix) : e1 = e2 := by
  have h2 : e1.data ++ suffix.data = e2.data ++ suffix.data := congrArg String.data h
  have h3 : e1.data = e2.data := List.append_cancel_right h2
  exact congrArg String.mk h3

/-- C7: every call builds its request URL from the `FM_URL` value current at
that call (the handle stores no base URL): the records-range URL and the
session URL decompose as the current `FM_URL` value followed by a suffix
derived only from the handle and the arguments; the single request issued by
`get_records` uses exactly the URL built from the env value passed to that
call; and two calls on the same handle with different `FM_URL` values
construct different URLs (for both `get_records` and `get_session_token`). -/
theorem base_url_read_at_call_time :
    (∀ env fm start limit,
      records_range_url env fm start limit =
        fm_base env ++ (records_url_suffix fm ++ "?_offset=" ++ toString start ++
          "&_limit=" ++ toString limit)) ∧
    (∀ env database,
      session_url env database = fm_base env ++ session_url_suffix database) ∧
    (∀ fm tok env world start limit, fm.token = some tok →
      (get_records fm env world start limit).2.2 =
        [range_request env fm start limit tok]) ∧
    (∀ (e1 e2 : String) fm start limit, e1 ≠ e2 →
      records_range_url (some e1) fm start limit ≠
        records_range_url (some e2) fm start limit) ∧
    (∀ (e1 e2 : String) database, e1 ≠ e2 →
      session_url (some e1) database ≠ session_url (some e2) database) := by
  refine ⟨?_, ?_, ?_, ?_, ?_⟩
  · intro env fm start limit
    rfl
  · intro env database
    rfl
  · intro fm tok env world start limit htok
    have ha : (authenticated_request fm world (records_range_url env fm start limit)
        .GET none).2.2 = [range_request env fm start limit tok] := by
      unfold authenticated_request
      rw [htok]
      dsimp only
      cases world (bearer_request (records_range_url env fm start limit) .GET none tok) with
      | none => rfl
      | some resp =>
        obtain ⟨st, rbody⟩ := resp
        cases rbody with
        | none => rfl
        | some j => rfl
    unfold get_records
    rcases hx : authenticated_request fm world (records_range_url env fm start limit)
        .GET none with ⟨r, fm1, tr⟩
    rw [hx] at ha
    cases r with
    | error e => exact ha
    | ok response =>
      dsimp only
      cases hd : extract_data response with
      | some d => exact ha
      | none => exact ha
  · intro e1 e2 fm start limit hne heq
    exact hne (string_append_right_cancel e1 e2 _ heq)
  · intro e1 e2 database hne heq
    exact hne (string_append_right_cancel e1 e2 _ heq)

/-- Witness for C7: a token-carrying handle issues exactly the range request
built from the env value of the call, and distinct `FM_URL` values yield
distinct records and session URLs. -/
theorem base_url_read_at_call_time_witness :
    ((get_records w_fm w_env token_world 1 1).2.2 =
      [range_request w_env w_fm 1 1 "T"]) ∧
    (records_range_url (some "http://a") w_fm 1 1 ≠
      records_range_url (some "http://b") w_fm 1 1) ∧
    (session_url (some "http://a") "db" ≠ session_url (some "http://b") "db") :=
  ⟨base_url_read_at_call_time.2.2.1 w_fm "T" w_env token_world 1 1 rfl,
   base_url_read_at_call_time.2.2.2.1 "http://a" "http://b" w_fm 1 1 (by decide),
   base_url_read_at_call_time.2.2.2.2 "http://a" "http://b" "db" (by decide)⟩

/-! ### `get_row_names_by_example` lemmas -/

theorem foldl_push_non_global :
    ∀ (l : List (String × Json)) (acc : List String),
      l.foldl (fun fields p =>
        if ¬ starts_with p.1 "g_" then fields ++ [p.1] else fields) acc =
        acc ++ (l.map Prod.fst).filter (fun k => !(starts_with k "g_")) := by
  intro l
  induction l with
  | nil =>
    intro acc
    simp
  | cons q rest ih =>
    intro acc
    cases hp : starts_with q.1 "g_" with
    | true =>
      simp only [Bool.not_eq_true] at ih ⊢
      simp [hp, ih]
    | false =>
      simp only [Bool.not_eq_true] at ih ⊢
      simp [hp, ih, List.append_assoc]

theorem get_row_names_by_example_eq (record : Json)
    (fields : List (String × Json))
    (h : (record.get "fieldData").bind Json.as_object = some fields) :
    get_row_names_by_example record =
      (fields.map Prod.fst).filter (fun k => !(starts_with k "g_")) := by
  unfold get_row_names_by_example
  rw [h]
  simpa using foldl_push_non_global fields []

theorem get_row_names_by_example_empty (record : Json)
    (h : (record.get "fieldData").bind Json.as_object = none) :
    get_row_names_by_example record = [] := by
  unfold get_row_names_by_example
  rw [h]

/-- C8: `get_row_names_by_example` returns exactly the keys of the record's
`fieldData` object whose names do not start with `g_` (in order); it returns
the empty vector whenever `fieldData` is absent or not a JSON object; and a
key starting with `g_` is never in the result. -/
theorem row_names_are_non_global_field_data_keys :
    (∀ record fields,
      (record.get "fieldData").bind Json.as_object = some fields →
      get_row_names_by_example record =
        (fields.map Prod.fst).filter (fun k => !(starts_with k "g_"))) ∧
    (∀ record,
      (record.get "fieldData").bind Json.as_object = none →
      get_row_names_by_example record = []) ∧
    (∀ record k, k ∈ get_row_names_by_example record →
      starts_with k "g_" = false) := by
  refine ⟨?_, ?_, ?_⟩
  · exact fun record fields h => get_row_names_by_example_eq record fields h
  · exact fun record h => get_row_names_by_example_empty record h
  · intro record k hk
    cases hb : (record.get "fieldData").bind Json.as_object with
    | some fields =>
      rw [get_row_names_by_example_eq record fields hb] at hk
      have h2 := List.mem_filter.mp hk
      simpa using h2.2
    | none =>
      rw [get_row_names_by_example_empty record hb] at hk
      exact absurd hk (List.not_mem_nil k)

/-- Witness for C8: on a record with keys `name`, `g_global`, `age` the
result is `["name", "age"]`; on a non-object record it is empty; `name` does
not start with `g_`. -/
theorem row_names_are_non_global_field_data_keys_witness :
    get_row_names_by_example c8_record = ["name", "age"] ∧
    get_row_names_by_example (Json.str "x") = [] ∧
    starts_with "name" "g_" = false :=
  ⟨by
    rw [row_names_are_non_global_field_data_keys.1 c8_record
      [("name", Json.str "x"), ("g_global", Json.str "y"), ("age", Json.num 3)] rfl]
    rfl,
   row_names_are_non_global_field_data_keys.2.1 (Json.str "x") rfl,
   row_names_are_non_global_field_data_keys.2.2 c8_record "name" (by decide)⟩

theorem authenticated_request_ok (fm : Filemaker) (world : World) (url : String)
    (method : Method) (body : Option Json) (tok : String) (st : Nat)
    (respBody : Json) (htok : fm.token = some tok)
    (hw : world (bearer_request url method body tok) =
      some { status := st, body := some respBody }) :
    authenticated_request fm world url method body =
      (.ok respBody, fm, [bearer_request url method body tok]) := by
  unfold authenticated_request
  rw [htok]
  dsimp only
  rw [hw]

/-- C10: when the upstream response's body contains a `response.data` member
that is not a JSON array, `get_records` and `search` return `Ok` with the
empty vector; they return an error when `response.data` is absent;
`advanced_search` instead errors whenever `response.data` is absent or not
an array. -/
theorem non_array_data_empty_for_get_and_search :
    (∀ fm tok env world start limit st body d,
      fm.token = some tok →
      world (range_request env fm start limit tok) =
        some { status := st, body := some body } →
      extract_data body = some d →
      d.as_array = none →
      (get_records fm env world start limit).1 = .ok []) ∧
    (∀ fm tok env world start limit st body,
      fm.token = some tok →
      world (range_request env fm start limit tok) =
        some { status := st, body := some body } →
      extract_data body = none →
      (get_records fm env world start limit).1 =
        .error (.msg "Failed to retrieve records")) ∧
    (∀ fm tok env world query sort ascending st body d,
      fm.token = some tok →
      world (bearer_request (find_url env fm) .POST
          (some (search_body query sort ascending)) tok) =
        some { status := st, body := some body } →
      extract_data body = some d →
      d.as_array = none →
      (search fm env world query sort ascending).1 = .ok []) ∧
    (∀ fm tok env world query sort ascending st body,
      fm.token = some tok →
      world (bearer_request (find_url env fm) .POST
          (some (search_body query sort ascending)) tok) =
        some { status := st, body := some body } →
      extract_data body = none →
      (search fm env world query sort ascending).1 =
        .error (.msg "Failed to retrieve search results")) ∧
    (∀ fm tok env world fields sort ascending st body,
      fm.token = some tok →
      world (bearer_request (find_url env fm) .POST
          (some (advanced_search_body fields sort ascending)) tok) =
        some { status := st, body := some body } →
      (extract_data body).bind Json.as_array = none →
      isError (advanced_search fm env world fields sort ascending).1 = true) := by
  refine ⟨?_, ?_, ?_, ?_, ?_⟩
  · intro fm tok env world start limit st body d htok hw hd hna
    have ha := authenticated_request_ok fm world
      (records_range_url env fm start limit) .GET none tok st body htok hw
    unfold get_records
    rw [ha]
    dsimp only
    rw [hd]
    dsimp only
    rw [hna]
    rfl
  · intro fm tok env world start limit st body htok hw hd
    have ha := authenticated_request_ok fm world
      (records_range_url env fm start limit) .GET none tok st body htok hw
    unfold get_records
    rw [ha]
    dsimp only
    rw [hd]
  · intro fm tok env world query sort ascending st body d htok hw hd hna
    have ha := authenticated_request_ok fm world (find_url env fm) .POST
      (some (search_body query sort ascending)) tok st body htok hw
    unfold search
    rw [ha]
    dsimp only
    rw [hd]
    dsimp only
    rw [hna]
    rfl
  · intro fm tok env world query sort ascending st body htok hw hd
    have ha := authenticated_request_ok fm world (find_url env fm) .POST
      (some (search_body query sort ascending)) tok st body htok hw
    unfold search
    rw [ha]
    dsimp only
    rw [hd]
  · intro fm tok env world fields sort ascending st body htok hw hb
    have ha := authenticated_request_ok fm world (find_url env fm) .POST
      (some (advanced_search_body fields sort ascending)) tok st body htok hw
    unfold advanced_search
    rw [ha]
    dsimp only
    rw [hb]
    rfl

/-- Witness for C10: a body whose `response.data` is a string makes
`get_records` and `search` return `Ok []` and `advanced_search` error; a body
without `response.data` makes `get_records` and `search` error. -/
theorem non_array_data_empty_witness :
    (get_records w_fm w_env non_array_data_world 1 1).1 = .ok [] ∧
    (get_records w_fm w_env no_data_world 1 1).1 =
      .error (.msg "Failed to retrieve records") ∧
    (search w_fm w_env non_array_data_world [] [] true).1 = .ok [] ∧
    (search w_fm w_env no_data_world [] [] true).1 =
      .error (.msg "Failed to retrieve search results") ∧
    isError (advanced_search w_fm w_env non_array_data_world [] [] true).1 = true :=
  ⟨non_array_data_empty_for_get_and_search.1 w_fm "T" w_env non_array_data_world
      1 1 200 non_array_data_body (Json.str "not an array") rfl rfl rfl rfl,
   non_array_data_empty_for_get_and_search.2.1 w_fm "T" w_env no_data_world
      1 1 200 no_data_body rfl rfl rfl,
   non_array_data_empty_for_get_and_search.2.2.1 w_fm "T" w_env
      non_array_data_world [] [] true 200 non_array_data_body
      (Json.str "not an array") rfl rfl rfl rfl,
   non_array_data_empty_for_get_and_search.2.2.2.1 w_fm "T" w_env no_data_world
      [] [] true 200 no_data_body rfl rfl rfl,
   non_array_data_empty_for_get_and_search.2.2.2.2 w_fm "T" w_env
      non_array_data_world [] [] true 200 non_array_data_body rfl rfl rfl⟩

end FilemakerLib
